import Mathlib

/-!
Shallow embedding of the aggregation-and-scoring core of the supply-chain
health index dashboard (src/config.py, src/scoring/engine.py,
src/data/aggregator.py, src/data/cache.py, src/app.py).

Python dicts are modelled as association lists in insertion order with
unique keys (`Dict`); floats are modelled as exact rationals; raised
exceptions are modelled with `Except` / `Option` results.
-/

namespace GSC

instance {ε α : Type} [DecidableEq ε] [DecidableEq α] : DecidableEq (Except ε α) := fun a b =>
  match a, b with
  | .ok x, .ok y => decidable_of_iff (x = y) (by simp)
  | .error x, .error y => decidable_of_iff (x = y) (by simp)
  | .ok _, .error _ => isFalse (fun h => Except.noConfusion h)
  | .error _, .ok _ => isFalse (fun h => Except.noConfusion h)

/-- Python dict with string keys, as an insertion-ordered association list. -/
abbrev Dict (α : Type) : Type := List (String × α)

/-- Dict lookup (`d[k]` / `d.get(k)`): first entry with the given key. -/
def dictFind {α : Type} (k : String) : Dict α → Option α
  | [] => none
  | p :: ps => if p.1 = k then some p.2 else dictFind k ps

/-- The key list of a dict (`list(d.keys())`). -/
def dictKeys {α : Type} (d : Dict α) : List String := d.map Prod.fst

/-- `sum(d.values())`. -/
def dictValuesSum (d : Dict ℚ) : ℚ := (d.map Prod.snd).sum

@[simp] theorem dictFind_nil {α : Type} (k : String) : dictFind k ([] : Dict α) = none := rfl

@[simp] theorem dictFind_cons {α : Type} (k : String) (p : String × α) (ps : Dict α) :
    dictFind k (p :: ps) = if p.1 = k then some p.2 else dictFind k ps := rfl

theorem dictFind_append {α : Type} (k : String) (a b : Dict α) :
    dictFind k (a ++ b) = ((dictFind k a).elim (dictFind k b) some) := by
  induction a with
  | nil => simp
  | cons p ps ih =>
    by_cases h : p.1 = k <;> simp [h, ih]

theorem dictFind_map_value {α β : Type} (k : String) (f : α → β) (d : Dict α) :
    dictFind k (d.map (fun p => (p.1, f p.2))) = (dictFind k d).map f := by
  induction d with
  | nil => simp
  | cons p ps ih =>
    by_cases h : p.1 = k <;> simp [h, ih]

-- ---------------------------------------------------------------------------
-- src/config.py
-- ---------------------------------------------------------------------------

/-- `CATEGORY_WEIGHTS` from src/config.py. -/
def CATEGORY_WEIGHTS : Dict ℚ :=
  [("weather", 1/10), ("supply_chain", 2/10), ("energy", 2/10),
   ("tariffs", 15/100), ("trucking", 15/100), ("geopolitical", 2/10)]

/-- One entry of `HEALTH_TIERS` from src/config.py. -/
structure HealthTier where
  tmin : ℚ
  tmax : ℚ
  label : String
  color : String
deriving DecidableEq

/-- `HEALTH_TIERS` from src/config.py. -/
def HEALTH_TIERS : List HealthTier :=
  [⟨80, 100, "Healthy", "#00d97e"⟩,
   ⟨60, 79, "Stable", "#f6c343"⟩,
   ⟨40, 59, "Stressed", "#fd7e14"⟩,
   ⟨0, 39, "Critical", "#e63757"⟩]

/-- `HISTORY_DAYS` from src/config.py. -/
def HISTORY_DAYS : Nat := 90

-- ---------------------------------------------------------------------------
-- src/scoring/engine.py
-- ---------------------------------------------------------------------------

/-- The two failure modes of the scoring engine: the two `raise ValueError`
sites of `compute_composite_index` (weight-sum check and missing-category
check), which the spec names ConfigurationError and MissingCategoryError. -/
inductive EngineError where
  | configurationError
  | missingCategory
deriving DecidableEq

/-- `np.isclose(a, b, atol)` with numpy's default relative tolerance
`rtol = 1e-5`: `|a - b| <= atol + rtol * |b|`. -/
def npIsClose (a b atol : ℚ) : Bool := |a - b| ≤ atol + (1/100000) * |b|

/-- `np.clip(x, lo, hi)`. -/
def npClip (x lo hi : ℚ) : ℚ := max lo (min x hi)

/-- `compute_composite_index(category_scores, weights)` from
src/scoring/engine.py. `weights = weights or CATEGORY_WEIGHTS` substitutes
the configured default when the argument is `None` or an empty (falsy) dict. -/
def compute_composite_index (category_scores : Dict ℚ) (weights : Option (Dict ℚ)) :
    Except EngineError ℚ :=
  let ws : Dict ℚ :=
    match weights with
    | none => CATEGORY_WEIGHTS
    | some w => if w.isEmpty then CATEGORY_WEIGHTS else w
  if ¬ (npIsClose (dictValuesSum ws) 1 (1/100)) then
    .error .configurationError
  else if (dictKeys ws).any (fun c => (dictFind c category_scores).isNone) then
    .error .missingCategory
  else
    .ok (npClip ((ws.map (fun p => p.2 * ((dictFind p.1 category_scores).getD 0))).sum) 0 100)

/-- Pandas `series * w` (scalar multiplication), on a series over a shared
date axis represented by its value list. -/
def seriesScale (w : ℚ) (s : List ℚ) : List ℚ := s.map (fun x => w * x)

/-- Pandas `series + series` on a shared date axis. -/
def seriesAdd (a b : List ℚ) : List ℚ := List.zipWith (· + ·) a b

/-- Pandas `series.clip(0.0, 100.0)`. -/
def seriesClip (s : List ℚ) : List ℚ := s.map (fun x => npClip x 0 100)

/-- `compute_composite_series(category_history, weights)` from
src/scoring/engine.py, embedded for the aligned case: all series share one
date axis of length `n` (the claim's hypothesis; `pd.DataFrame` alignment is
the identity there).  `df[cat]` for a category absent from the history dict
raises `KeyError`, modelled as `none`.  Python's `sum` starts from the
scalar `0`, which broadcasts over the axis (`List.replicate n 0`). -/
def compute_composite_series (n : Nat) (category_history : Dict (List ℚ))
    (weights : Option (Dict ℚ)) : Option (List ℚ) :=
  let ws : Dict ℚ :=
    match weights with
    | none => CATEGORY_WEIGHTS
    | some w => if w.isEmpty then CATEGORY_WEIGHTS else w
  if (dictKeys ws).any (fun c => (dictFind c category_history).isNone) then
    none
  else
    some (seriesClip (ws.foldl
      (fun acc p => seriesAdd acc (seriesScale p.2 ((dictFind p.1 category_history).getD [])))
      (List.replicate n 0)))

/-- The scan loop of `get_health_tier`: first tier whose `[min, max]` range
contains the score. -/
def findTier (score : ℚ) : List HealthTier → Option HealthTier
  | [] => none
  | t :: ts => if t.tmin ≤ score ∧ score ≤ t.tmax then some t else findTier score ts

/-- `get_health_tier(score)` from src/scoring/engine.py: first matching tier,
falling back to `HEALTH_TIERS[-1]` when no range matches. -/
def get_health_tier (score : ℚ) : HealthTier :=
  (findTier score HEALTH_TIERS).getD (HEALTH_TIERS.getLastD ⟨0, 0, "", ""⟩)

-- ---------------------------------------------------------------------------
-- src/data/aggregator.py : penalty tables and per-port map markers
-- ---------------------------------------------------------------------------

/-- `_DIRECT_PENALTY` from src/data/aggregator.py. -/
def _DIRECT_PENALTY : Dict ℚ := [("high", 15), ("medium", 8), ("low", 3)]

/-- `_REGIONAL_PENALTY` from src/data/aggregator.py. -/
def _REGIONAL_PENALTY : Dict ℚ := [("high", 8), ("medium", 4), ("low", 2)]

/-- The two match kinds produced by `_match_news_to_ports`. -/
inductive MatchKind where
  | direct
  | regional
deriving DecidableEq

/-- One entry of `port_news[name]`: a matched negative alert together with
its match kind.  Only the severity field feeds the score. -/
structure MatchedAlert where
  severity : String
  kind : MatchKind
deriving DecidableEq

/-- `non_weather_cats` from `_derive_map_markers`. -/
def non_weather_cats : List String :=
  ["energy", "supply_chain", "tariffs", "trucking", "geopolitical"]

/-- `non_weather_weights = {cat: CATEGORY_WEIGHTS.get(cat, 0) for cat in
non_weather_cats if cat in CATEGORY_WEIGHTS}`. -/
def non_weather_weights : Dict ℚ :=
  (non_weather_cats.filter (fun c => (dictFind c CATEGORY_WEIGHTS).isSome)).map
    (fun c => (c, (dictFind c CATEGORY_WEIGHTS).getD 0))

/-- `weight_sum = sum(non_weather_weights.values()) or 1.0` (Python `or`:
a zero sum is falsy and is replaced by 1.0). -/
def nw_weight_sum : ℚ :=
  if dictValuesSum non_weather_weights = 0 then 1 else dictValuesSum non_weather_weights

/-- `normalized_weights` from `_derive_map_markers`. -/
def normalized_weights : Dict ℚ :=
  non_weather_weights.map (fun p => (p.1, p.2 / nw_weight_sum))

/-- `global_macro = sum(current_scores.get(cat, 50) * w for cat, w in
normalized_weights.items())`. -/
def global_macro_score (current_scores : Dict ℚ) : ℚ :=
  (normalized_weights.map (fun p => ((dictFind p.1 current_scores).getD 50) * p.2)).sum

/-- One iteration of the news-penalty loop:
`penalty_table.get(severity, 2)` with the table chosen by match kind. -/
def alert_penalty (a : MatchedAlert) : ℚ :=
  let table := match a.kind with
    | .direct => _DIRECT_PENALTY
    | .regional => _REGIONAL_PENALTY
  (dictFind a.severity table).getD 2

/-- The accumulated `news_penalty` before the cap. -/
def news_penalty_raw (matched : List MatchedAlert) : ℚ :=
  matched.foldl (fun acc a => acc + alert_penalty a) 0

/-- Python `round` to integer: round-half-to-even. -/
def pyRoundInt (x : ℚ) : ℤ :=
  let f := ⌊x⌋
  let r := x - (f : ℚ)
  if r < 1/2 then f
  else if 1/2 < r then f + 1
  else if f % 2 = 0 then f else f + 1

/-- Python `round(x, 1)`. -/
def pyRound1 (x : ℚ) : ℚ := (pyRoundInt (10 * x) : ℚ) / 10

/-- The per-port score of `_derive_map_markers` (src/data/aggregator.py
lines 204-241): `composite = local_weather*0.60 + global_macro*0.40`;
`news_penalty = min(sum of per-alert penalties, 40)`;
`score = round(max(0.0, min(100.0, composite - news_penalty)), 1)`. -/
def port_score (local_weather : ℚ) (current_scores : Dict ℚ)
    (matched : List MatchedAlert) : ℚ :=
  let composite := local_weather * (60/100) + global_macro_score current_scores * (40/100)
  let news_penalty := min (news_penalty_raw matched) 40
  pyRound1 (max 0 (min 100 (composite - news_penalty)))

-- ---------------------------------------------------------------------------
-- src/data/aggregator.py : provider fetch, history alignment, aggregation
-- ---------------------------------------------------------------------------

/-- A provider history series (`fetch_history` result): chronologically
ordered (date, score) pairs; dates are day numbers. -/
abbrev HistSeries := List (Int × ℚ)

/-- The canonical date range of one cycle:
`pd.date_range(end=today, periods=HISTORY_DAYS, freq="D")`. -/
def canonicalDates (endDay : Int) : List Int :=
  (List.range HISTORY_DAYS).map
    (fun (i : Nat) => endDay - ((HISTORY_DAYS : Int) - 1) + (i : Int))

/-- `_make_fallback_series(days, name, value)`: a flat series at `value`
over the cycle's daily date range. -/
def _make_fallback_series (dates : List Int) (value : ℚ) : List ℚ :=
  dates.map (fun _ => value)

/-- Forward-fill lookup used by `reindex(dates, method="ffill")`: the value
of the last source point with date at most `d` (the source series is
chronological), `none` when no source point lies at or before `d`. -/
def ffillAt (src : HistSeries) (d : Int) : Option ℚ :=
  src.foldl (fun acc p => if p.1 ≤ d then some p.2 else acc) none

/-- `aligned.iloc[-1] = score`: replace the final element. -/
def setLastValue (s : List ℚ) (v : ℚ) : List ℚ :=
  if s.isEmpty then s else s.dropLast ++ [v]

/-- History alignment in `aggregate_data` (src/data/aggregator.py lines
419-430): `reindex(dates, method="ffill")`, then `fillna(score)`, then
overwrite the last point with the live score. -/
def alignHistory (src : HistSeries) (dates : List Int) (score : ℚ) : List ℚ :=
  setLastValue ((dates.map (fun d => ffillAt src d)).map (fun x => x.getD score)) score

/-- The observable behaviour of one provider task during a cycle: both
fetches ran (each returning a value or raising), or the task never
delivered a result within the batch deadline (timeout / crashed wrapper). -/
inductive FetchOutcome where
  | completed (current : Except String ℚ) (history : Except String HistSeries)
  | neverCompleted

/-- The tuple returned by `_fetch_provider_data` (minus the metadata, which
no claim touches): score, optional history, optional error string. -/
structure ProviderResult where
  score : ℚ
  history : Option HistSeries
  errorMsg : Option String

/-- `_fetch_provider_data(provider)` from src/data/aggregator.py: a failed
`fetch_current` yields the neutral score 50.0 and records the error; a
failed `fetch_history` yields no history and records the error only if none
was recorded yet. -/
def fetchProviderData (current : Except String ℚ) (history : Except String HistSeries) :
    ProviderResult :=
  let sc : ℚ × Option String :=
    match current with
    | .ok s => (s, none)
    | .error e => (50, some e)
  match history with
  | .ok h => ⟨sc.1, some h, sc.2⟩
  | .error e => ⟨sc.1, none, if sc.2.isNone then some e else sc.2⟩

/-- The three snapshot sections assembled by `aggregate_data` that the
structural claims are about (dates, alerts, markers, metadata etc. omitted). -/
structure Snapshot where
  current_scores : Dict ℚ
  category_history : Dict (List ℚ)
  provider_errors : Dict String
deriving DecidableEq

/-- The history stored for one completed provider (aggregate_data lines
419-433): the aligned real series when present and non-empty, otherwise
the flat fallback at the provider's current score. -/
def storedHistory (dates : List Int) (r : ProviderResult) : List ℚ :=
  match r.history with
  | some h =>
    if h.isEmpty then _make_fallback_series dates r.score
    else alignHistory h dates r.score
  | none => _make_fallback_series dates r.score

/-- Processing of one completed provider future in `aggregate_data`
(lines 400-433): store the score, record the error if any, and store the
aligned history (with flat fallback when the history is missing or empty). -/
def processProvider (dates : List Int) (acc : Snapshot) (cat : String)
    (current : Except String ℚ) (history : Except String HistSeries) : Snapshot :=
  let r := fetchProviderData current history
  { current_scores := acc.current_scores ++ [(cat, r.score)]
    category_history := acc.category_history ++ [(cat, storedHistory dates r)]
    provider_errors :=
      match r.errorMsg with
      | some e => acc.provider_errors ++ [(cat, e)]
      | none => acc.provider_errors }

/-- Whether a provider task delivered a result this cycle. -/
def isCompleted (outcome : String → FetchOutcome) (c : String) : Bool :=
  match outcome c with
  | .completed _ _ => true
  | .neverCompleted => false

/-- The `as_completed` collection loop of `aggregate_data`: every provider
future that completed is processed; futures that never completed within the
batch deadline contribute nothing here.  Completion order is abstracted as
registry order (all consumed facts are per-key lookups, insensitive to
insertion order of distinct keys). -/
def collectCompleted (dates : List Int) (outcome : String → FetchOutcome) :
    List String → Snapshot → Snapshot
  | [], acc => acc
  | c :: cs, acc =>
    collectCompleted dates outcome cs
      (match outcome c with
       | .completed cur hist => processProvider dates acc c cur hist
       | .neverCompleted => acc)

/-- The fill loop of `aggregate_data` (lines 470-474): every configured
category still missing gets the neutral score 50.0, a flat fallback
history, and the error string "Provider timed out". -/
def fillMissing (dates : List Int) : List String → Snapshot → Snapshot
  | [], acc => acc
  | c :: cs, acc =>
    fillMissing dates cs
      (if (dictFind c acc.current_scores).isSome then acc
       else
        { current_scores := acc.current_scores ++ [(c, 50)]
          category_history := acc.category_history ++ [(c, _make_fallback_series dates 50)]
          provider_errors := acc.provider_errors ++ [(c, "Provider timed out")] })

/-- `aggregate_data()` from src/data/aggregator.py, restricted to the
provider-result assembly: `cats` is the configured category list (one per
registered provider), `outcome` the behaviour of each provider's task this
cycle, `endDay` the current day anchoring the canonical date range. -/
def aggregate_data (cats : List String) (outcome : String → FetchOutcome)
    (endDay : Int) : Snapshot :=
  let dates := canonicalDates endDay
  fillMissing dates cats (collectCompleted dates outcome cats ⟨[], [], []⟩)

-- ---------------------------------------------------------------------------
-- src/app.py : health endpoint and startup validation
-- ---------------------------------------------------------------------------

/-- The health policy of the `/health` endpoint (src/app.py lines 259-307):
state and HTTP status as a function of `has_data`, `_LAST_FETCH_STATUS` and
the snapshot age in seconds (`none` when no last-update time is known). -/
def healthState (hasData : Bool) (fetchStatus : String) (ageSeconds : Option ℚ) :
    String × Nat :=
  if hasData = false then ("warming_up", 503)
  else if fetchStatus = "failed" then
    ("degraded",
     match ageSeconds with
     | none => 503
     | some a => if a > 1800 then 503 else 200)
  else
    match ageSeconds with
    | some a => if a > 1800 then ("degraded", 200) else ("healthy", 200)
    | none => ("healthy", 200)

/-- `_KEY_MIGRATIONS` from src/app.py. -/
def _KEY_MIGRATIONS : List (String × String) :=
  [("ports", "supply_chain"), ("shipping", "trucking")]

/-- `_migrate_keys` applied to one section dict: for each legacy/new pair,
`sub[new] = sub.pop(old)` when the legacy key is present and the new one is
not (`pop` removes the entry, the assignment appends at the end). -/
def migrateSection {α : Type} (sub : Dict α) : Dict α :=
  _KEY_MIGRATIONS.foldl
    (fun s m =>
      match dictFind m.1 s with
      | some v =>
        if (dictFind m.2 s).isNone then (s.eraseP (fun p => p.1 == m.1)) ++ [(m.2, v)]
        else s
      | none => s)
    sub

/-- The startup load validation of src/app.py (lines 108-141), as a function
of the `current_scores` section of the loaded persisted snapshot — the only
section the validation reads.  The loader itself (`get_cached_dashboard`) is
not among the sources, so the loaded value is a parameter: `none` models a
missing cache file or a load exception.  Result: the retained startup data
and the `_DATA_IS_FRESH` flag (`false` = the process starts Cold). -/
def startupData (loaded : Option (Dict ℚ)) : Option (Dict ℚ) × Bool :=
  match loaded with
  | none => (none, false)
  | some scores0 =>
    let scores := migrateSection scores0
    if (dictKeys CATEGORY_WEIGHTS).all (fun k => (dictKeys scores).contains k) then
      (some scores, true)
    else (none, false)

-- ---------------------------------------------------------------------------
-- src/data/cache.py : dashboard-state persistence
-- ---------------------------------------------------------------------------

/-- Civil calendar date for a day number (days since 1970-01-01), the
standard days-to-civil algorithm with floor division. -/
def civilFromDays (z0 : Int) : Int × Int × Int :=
  let z := z0 + 719468
  let era := Int.fdiv z 146097
  let doe := z - era * 146097
  let yoe := Int.fdiv (doe - Int.fdiv doe 1460 + Int.fdiv doe 36524 - Int.fdiv doe 146096) 365
  let y := yoe + era * 400
  let doy := doe - (365 * yoe + Int.fdiv yoe 4 - Int.fdiv yoe 100)
  let mp := Int.fdiv (5 * doy + 2) 153
  let d := doy - Int.fdiv (153 * mp + 2) 5 + 1
  let m := mp + (if mp < 10 then 3 else -9)
  (y + (if m ≤ 2 then 1 else 0), m, d)

/-- Day number for a civil calendar date (inverse direction). -/
def daysFromCivil (y m d : Int) : Int :=
  let yy := y - (if m ≤ 2 then 1 else 0)
  let era := Int.fdiv yy 400
  let yoe := yy - era * 400
  let mp := m + (if 2 < m then -3 else 9)
  let doy := Int.fdiv (153 * mp + 2) 5 + d - 1
  let doe := yoe * 365 + Int.fdiv yoe 4 - Int.fdiv yoe 100 + doy
  era * 146097 + doe - 719468

/-- The digit character zero. -/
def zeroChar : Char := Char.ofNat 48

/-- Zero-padded decimal rendering. -/
def padNum (width : Nat) (n : Int) : String :=
  let s := toString n.toNat
  if s.length < width then String.mk (List.replicate (width - s.length) zeroChar) ++ s
  else s

/-- `timestamp.strftime("%Y-%m-%d")`. -/
def isoOfDay (z : Int) : String :=
  let c := civilFromDays z
  padNum 4 c.1 ++ "-" ++ padNum 2 c.2.1 ++ "-" ++ padNum 2 c.2.2

/-- `pd.to_datetime` on one ISO date string: parse back to a day number,
`none` on malformed input (pandas raises). -/
def dayOfIso (s : String) : Option Int :=
  match (s.splitOn "-").map String.toNat? with
  | [some y, some m, some d] => some (daysFromCivil y m d)
  | _ => none

/-- `pd.to_datetime` on the stored date-string list: fails if any entry
fails to parse. -/
def parseDates (ss : List String) : Option (List Int) := ss.mapM dayOfIso

/-- A pandas Series with its own datetime index: the shape of each entry of
`category_history` inside the in-memory dashboard dict.  `none` values are
NaN. -/
structure PdSeries where
  index : List Int
  values : List (Option ℚ)
deriving DecidableEq

/-- The sections of the in-memory dashboard dict that persistence touches
(`dates`, `category_history`, `current_scores`); all other keys pass
through JSON untouched and are omitted. -/
structure DashState where
  dates : List Int
  category_history : Dict PdSeries
  current_scores : Dict ℚ
deriving DecidableEq

/-- The JSON-safe persisted form written by `set_cached_dashboard`. -/
structure SafeState where
  dates : List String
  category_history : Dict (List (Option ℚ))
  current_scores : Dict ℚ
deriving DecidableEq

/-- `set_cached_dashboard(data)` from src/data/cache.py (lines 123-147):
dates are flattened to ISO date strings
(`safe_data["dates"].strftime("%Y-%m-%d").tolist()`), each history series
to its plain value list (`series.replace({np.nan: None}).tolist()`), all
scalar sections pass through JSON unchanged. -/
def set_cached_dashboard (d : DashState) : SafeState :=
  { dates := d.dates.map isoOfDay
    category_history := d.category_history.map (fun p => (p.1, p.2.values))
    current_scores := d.current_scores }

/-- The result of `reconstruct_dashboard_state`: each mutated section is
either restored to pandas form or left in its raw JSON-safe form (the
best-effort return from the exception handler). -/
structure ReconResult where
  dates : Sum (List Int) (List String)
  category_history : Sum (Dict PdSeries) (Dict (List (Option ℚ)))
  current_scores : Dict ℚ

/-- `reconstruct_dashboard_state(data)` from src/data/cache.py (lines
150-165): convert the date strings with `pd.to_datetime`, then rebuild each
history series as `pd.Series(values, index=dates)` — which raises when a
value list's length differs from the index length.  Any exception is caught
and the data is returned best-effort: sections already converted stay
converted, the rest stay in raw form. -/
def reconstruct_dashboard_state (d : SafeState) : ReconResult :=
  match parseDates d.dates with
  | none => ⟨.inr d.dates, .inr d.category_history, d.current_scores⟩
  | some idx =>
    if d.category_history.all (fun p => p.2.length = idx.length) then
      ⟨.inl idx,
       .inl (d.category_history.map (fun p => (p.1, PdSeries.mk idx p.2))),
       d.current_scores⟩
    else ⟨.inl idx, .inr d.category_history, d.current_scores⟩

/-- The per-category history value list of a reconstruction result,
whichever form it is in. -/
def reconHistoryValues (r : ReconResult) (cat : String) : Option (List (Option ℚ)) :=
  match r.category_history with
  | .inl h => (dictFind cat h).map PdSeries.values
  | .inr h => dictFind cat h

-- ---------------------------------------------------------------------------
-- Concrete inputs used by scenario conjuncts and witnesses
-- ---------------------------------------------------------------------------

/-- The scenario score map: 90/80/70/60/50/40 in configured-weight order. -/
def scenarioScores : Dict ℚ :=
  [("weather", 90), ("supply_chain", 80), ("energy", 70), ("tariffs", 60),
   ("trucking", 50), ("geopolitical", 40)]

/-- Score map with every non-weather category at 70 (global composite 70). -/
def scoresAll70 : Dict ℚ :=
  [("energy", 70), ("supply_chain", 70), ("tariffs", 70), ("trucking", 70),
   ("geopolitical", 70)]

/-- Counterexample cycle: the weather provider raises on `fetch_current`
but returns a one-point history at the earliest canonical date. -/
def cexOutcome : String → FetchOutcome := fun c =>
  if c = "weather" then .completed (.error "boom") (.ok [(-89, 40)]) else .neverCompleted

/-- Witness cycle: every provider task times out. -/
def allTimedOut : String → FetchOutcome := fun _ => .neverCompleted

/-- Witness cycle: every provider raises on both fetches. -/
def allRaised : String → FetchOutcome := fun _ => .completed (.error "boom") (.error "down")

/-- Witness cycle: every provider succeeds with score 80 and a one-point
history at the earliest canonical date with value 40. -/
def allGood : String → FetchOutcome := fun _ => .completed (.ok 80) (.ok [(-89, 40)])

end GSC

-- ===========================================================================
-- Theorems
-- ===========================================================================

namespace GSC

theorem dictValuesSum_nil : dictValuesSum ([] : Dict ℚ) = 0 := rfl

/-- A weight dict whose sum is within 1/100 of 1 is nonempty. -/
theorem weights_ne_nil_of_sum_close {ws : Dict ℚ} (hsum : |dictValuesSum ws - 1| ≤ 1/100) :
    ws ≠ [] := by
  rintro rfl
  rw [dictValuesSum_nil] at hsum
  norm_num at hsum

/-- `np.isclose` holds whenever the distance is within the absolute
tolerance alone. -/
theorem npIsClose_of_abs_le {a b atol : ℚ} (h : |a - b| ≤ atol) :
    npIsClose a b atol = true := by
  have hb : (0:ℚ) ≤ (1/100000) * |b| := by positivity
  simp only [npIsClose, decide_eq_true_eq]
  linarith

/-- Reduction of `compute_composite_index` for a nonempty explicit weight
map (so the `weights or CATEGORY_WEIGHTS` fallback does not fire). -/
theorem cci_nonempty (scores ws : Dict ℚ) (hne : ws.isEmpty = false) :
    compute_composite_index scores (some ws) =
      (if ¬ npIsClose (dictValuesSum ws) 1 (1/100) = true then
        Except.error EngineError.configurationError
       else if ((dictKeys ws).any fun c => (dictFind c scores).isNone) = true then
        Except.error EngineError.missingCategory
       else
        Except.ok (npClip ((ws.map fun p => p.2 * ((dictFind p.1 scores).getD 0)).sum) 0 100)) := by
  simp only [compute_composite_index, hne, Bool.false_eq_true, if_false]

/-- C1: for every weight map summing to 1.0 within ±0.01 and every score
map holding a value in [0,100] for each weighted category,
`compute_composite_index` returns the weighted sum clamped to [0,100] —
hence a value in [0,100] — and on the six configured weights with scores
90/80/70/60/50/40 it returns exactly 63.5. -/
theorem composite_index_weighted_sum_in_range (ws scores : Dict ℚ)
    (hsum : |dictValuesSum ws - 1| ≤ 1/100)
    (hcov : ∀ c ∈ dictKeys ws, ∃ v, dictFind c scores = some v ∧ 0 ≤ v ∧ v ≤ 100) :
    compute_composite_index scores (some ws) =
      .ok (npClip ((ws.map (fun p => p.2 * ((dictFind p.1 scores).getD 0))).sum) 0 100)
    ∧ 0 ≤ npClip ((ws.map (fun p => p.2 * ((dictFind p.1 scores).getD 0))).sum) 0 100
    ∧ npClip ((ws.map (fun p => p.2 * ((dictFind p.1 scores).getD 0))).sum) 0 100 ≤ 100
    ∧ compute_composite_index scenarioScores (some CATEGORY_WEIGHTS) = .ok (127/2) := by
  have hne : ws ≠ [] := weights_ne_nil_of_sum_close hsum
  have hempty : ws.isEmpty = false := List.isEmpty_eq_false.mpr hne
  have hclose : npIsClose (dictValuesSum ws) 1 (1/100) = true := npIsClose_of_abs_le hsum
  have hany : ((dictKeys ws).any fun c => (dictFind c scores).isNone) = false := by
    rw [List.any_eq_false]
    intro c hc
    obtain ⟨v, hv, -, -⟩ := hcov c hc
    simp [hv]
  refine ⟨?_, le_max_left _ _, max_le (by norm_num) (min_le_right _ _), ?_⟩
  · rw [cci_nonempty _ _ hempty, if_neg (not_not_intro hclose),
      if_neg (ne_true_of_eq_false hany)]
  · have hisc : npIsClose (dictValuesSum CATEGORY_WEIGHTS) 1 (1/100) = true := by
      simp only [npIsClose, decide_eq_true_eq]
      norm_num [dictValuesSum, CATEGORY_WEIGHTS]
    have hy : ((dictKeys CATEGORY_WEIGHTS).any fun c => (dictFind c scenarioScores).isNone)
        = false := by decide
    rw [cci_nonempty scenarioScores CATEGORY_WEIGHTS (by decide),
      if_neg (not_not_intro hisc), if_neg (ne_true_of_eq_false hy)]
    have hv : ((CATEGORY_WEIGHTS.map fun p => p.2 * ((dictFind p.1 scenarioScores).getD 0)).sum)
        = 127/2 := by
      simp +decide [CATEGORY_WEIGHTS, scenarioScores, dictFind]
      norm_num
    rw [hv]
    have : npClip (127/2) 0 100 = 127/2 := by
      rw [npClip, min_eq_left (by norm_num), max_eq_right (by norm_num)]
    rw [this]

/-- C3 counterexample: a weight map summing to 1.010005 — more than 0.01
away from 1 — for which no category is missing, yet
`compute_composite_index` returns normally instead of raising: the check
`np.isclose(weight_sum, 1.0, atol=0.01)` also carries numpy's default
relative tolerance 1e-5, so the true acceptance band is ±0.01001. -/
theorem composite_index_tolerance_counterexample :
    (1/100 < |dictValuesSum [("weather", (202001:ℚ)/200000)] - 1|)
    ∧ (∀ c ∈ dictKeys [("weather", (202001:ℚ)/200000)],
        (dictFind c [("weather", (50:ℚ))]).isSome)
    ∧ compute_composite_index [("weather", (50:ℚ))] (some [("weather", 202001/200000)])
        = .ok (202001/4000) := by
  refine ⟨by norm_num [dictValuesSum, lt_abs], by decide, ?_⟩
  have hisc : npIsClose (dictValuesSum [("weather", (202001:ℚ)/200000)]) 1 (1/100) = true := by
    simp only [npIsClose, decide_eq_true_eq]
    rw [abs_le]
    constructor <;> norm_num [dictValuesSum]
  have hy : ((dictKeys [("weather", (202001:ℚ)/200000)]).any
      fun c => (dictFind c [("weather", (50:ℚ))]).isNone) = false := by decide
  rw [cci_nonempty [("weather", (50:ℚ))] [("weather", (202001:ℚ)/200000)] (by decide),
    if_neg (not_not_intro hisc), if_neg (ne_true_of_eq_false hy)]
  have hv : (([("weather", (202001:ℚ)/200000)].map
      fun p => p.2 * ((dictFind p.1 [("weather", (50:ℚ))]).getD 0)).sum) = 202001/4000 := by
    simp +decide [dictFind]
    norm_num
  rw [hv]
  have : npClip ((202001:ℚ)/4000) 0 100 = 202001/4000 := by
    rw [npClip, min_eq_left (by norm_num), max_eq_right (by norm_num)]
  rw [this]

/-- C3 amended: for every nonempty weight map, `compute_composite_index`
raises the configuration error exactly when the weight sum is more than
0.01 + 1e-5 (the full `np.isclose` tolerance) away from 1.0, raises the
missing-category error exactly when the sum is within tolerance and some
weighted category lacks a score, and returns normally when both
preconditions hold; the weight-sum check runs on every call.  (An empty or
omitted weight map instead falls back to the configured defaults.) -/
theorem composite_index_error_iff (ws scores : Dict ℚ) (hne : ws ≠ []) :
    (compute_composite_index scores (some ws) = .error .configurationError
      ↔ ¬ |dictValuesSum ws - 1| ≤ 1/100 + 1/100000)
    ∧ (compute_composite_index scores (some ws) = .error .missingCategory
      ↔ (|dictValuesSum ws - 1| ≤ 1/100 + 1/100000
         ∧ ∃ c ∈ dictKeys ws, dictFind c scores = none))
    ∧ ((|dictValuesSum ws - 1| ≤ 1/100 + 1/100000
         ∧ ∀ c ∈ dictKeys ws, (dictFind c scores).isSome)
      → ∃ v, compute_composite_index scores (some ws) = .ok v) := by
  have hempty : ws.isEmpty = false := List.isEmpty_eq_false.mpr hne
  have htol : npIsClose (dictValuesSum ws) 1 (1/100) = true
      ↔ |dictValuesSum ws - 1| ≤ 1/100 + 1/100000 := by
    simp only [npIsClose, decide_eq_true_eq]
    norm_num
  rw [cci_nonempty _ _ hempty]
  by_cases hcl : npIsClose (dictValuesSum ws) 1 (1/100) = true
  · have htl : |dictValuesSum ws - 1| ≤ 1/100 + 1/100000 := htol.mp hcl
    rw [if_neg (not_not_intro hcl)]
    by_cases hmiss : ((dictKeys ws).any fun c => (dictFind c scores).isNone) = true
    · rw [if_pos hmiss]
      have hex : ∃ c ∈ dictKeys ws, dictFind c scores = none := by
        obtain ⟨c, hc, hn⟩ := List.any_eq_true.mp hmiss
        exact ⟨c, hc, Option.isNone_iff_eq_none.mp hn⟩
      refine ⟨⟨fun h => absurd h (by simp), fun h => absurd htl h⟩,
        ⟨fun _ => ⟨htl, hex⟩, fun _ => rfl⟩, ?_⟩
      rintro ⟨-, hall⟩
      obtain ⟨c, hc, hn⟩ := hex
      have := hall c hc
      simp [hn] at this
    · rw [if_neg hmiss]
      have hmiss' : ((dictKeys ws).any fun c => (dictFind c scores).isNone) = false := by
        simpa using hmiss
      refine ⟨⟨fun h => absurd h (by simp), fun h => absurd htl h⟩,
        ⟨fun h => absurd h (by simp), ?_⟩, fun _ => ⟨_, rfl⟩⟩
      rintro ⟨-, c, hc, hn⟩
      have := List.any_eq_false.mp hmiss' c hc
      simp [hn] at this
  · rw [if_pos hcl]
    have hnt : ¬ |dictValuesSum ws - 1| ≤ 1/100 + 1/100000 := fun h => hcl (htol.mpr h)
    refine ⟨⟨fun _ => hnt, fun _ => rfl⟩, ⟨fun h => absurd h (by simp), ?_⟩, ?_⟩
    · rintro ⟨h, -⟩
      exact absurd h hnt
    · rintro ⟨h, -⟩
      exact absurd h hnt

/-- C3 witness: weights summing to 0.9 raise the configuration error, and
a weight map whose key has no score raises the missing-category error. -/
theorem composite_index_error_iff_witness :
    compute_composite_index [("weather", (50:ℚ))] (some [("weather", 9/10)])
      = .error .configurationError
    ∧ compute_composite_index [("weather", (50:ℚ))]
        (some [("weather", 1/2), ("energy", 1/2)]) = .error .missingCategory := by
  constructor
  · refine (composite_index_error_iff [("weather", 9/10)] [("weather", 50)]
      (by decide)).1.mpr ?_
    rw [not_le]
    norm_num [dictValuesSum, lt_abs]
  · refine (composite_index_error_iff [("weather", 1/2), ("energy", 1/2)] [("weather", 50)]
      (by decide)).2.1.mpr ⟨?_, "energy", by decide, by decide⟩
    rw [abs_le]
    constructor <;> norm_num [dictValuesSum]

/-- C1 witness: the configured weights and the 90/80/70/60/50/40 score map
satisfy the hypotheses, and the composite is 63.5, inside [0,100]. -/
theorem composite_index_weighted_sum_in_range_witness :
    compute_composite_index scenarioScores (some CATEGORY_WEIGHTS) = .ok (127/2) := by
  refine (composite_index_weighted_sum_in_range CATEGORY_WEIGHTS scenarioScores
    (by norm_num [dictValuesSum, CATEGORY_WEIGHTS]) ?_).2.2.2
  intro c hc
  simp only [dictKeys, CATEGORY_WEIGHTS, List.map_cons, List.map_nil, List.mem_cons,
    List.not_mem_nil, or_false] at hc
  rcases hc with rfl | rfl | rfl | rfl | rfl | rfl
  · exact ⟨90, by decide, by norm_num, by norm_num⟩
  · exact ⟨80, by decide, by norm_num, by norm_num⟩
  · exact ⟨70, by decide, by norm_num, by norm_num⟩
  · exact ⟨60, by decide, by norm_num, by norm_num⟩
  · exact ⟨50, by decide, by norm_num, by norm_num⟩
  · exact ⟨40, by decide, by norm_num, by norm_num⟩

/-- C10: any score in a gap between the configured tier ranges — strictly
between 79 and 80, 59 and 60, or 39 and 40, below 0, or above 100 — falls
through every range check and lands on the fallback, the last entry of
`HEALTH_TIERS`, labelled "Critical"; 79.5 yields "Critical" while 79 yields
"Stable" and 80 yields "Healthy". -/
theorem health_tier_gap_falls_to_critical (s : ℚ)
    (h : (79 < s ∧ s < 80) ∨ (59 < s ∧ s < 60) ∨ (39 < s ∧ s < 40) ∨ s < 0 ∨ 100 < s) :
    get_health_tier s = HEALTH_TIERS.getLastD ⟨0, 0, "", ""⟩
    ∧ (HEALTH_TIERS.getLastD ⟨0, 0, "", ""⟩).label = "Critical"
    ∧ (get_health_tier (795/10)).label = "Critical"
    ∧ (get_health_tier 79).label = "Stable"
    ∧ (get_health_tier 80).label = "Healthy" := by
  have h1 : ¬(80 ≤ s ∧ s ≤ 100) := by
    rintro ⟨a, b⟩; rcases h with ⟨c, d⟩ | ⟨c, d⟩ | ⟨c, d⟩ | c | c <;> linarith
  have h2 : ¬(60 ≤ s ∧ s ≤ 79) := by
    rintro ⟨a, b⟩; rcases h with ⟨c, d⟩ | ⟨c, d⟩ | ⟨c, d⟩ | c | c <;> linarith
  have h3 : ¬(40 ≤ s ∧ s ≤ 59) := by
    rintro ⟨a, b⟩; rcases h with ⟨c, d⟩ | ⟨c, d⟩ | ⟨c, d⟩ | c | c <;> linarith
  have h4 : ¬(0 ≤ s ∧ s ≤ 39) := by
    rintro ⟨a, b⟩; rcases h with ⟨c, d⟩ | ⟨c, d⟩ | ⟨c, d⟩ | c | c <;> linarith
  refine ⟨?_, rfl, ?_, ?_, ?_⟩
  · simp [get_health_tier, findTier, HEALTH_TIERS, h1, h2, h3, h4]
  · norm_num [get_health_tier, findTier, HEALTH_TIERS]
  · norm_num [get_health_tier, findTier, HEALTH_TIERS]
  · norm_num [get_health_tier, findTier, HEALTH_TIERS]

/-- C10 witness: the gap score 79.5 is mapped to the Critical tier. -/
theorem health_tier_gap_falls_to_critical_witness :
    get_health_tier (795/10) = HEALTH_TIERS.getLastD ⟨0, 0, "", ""⟩ :=
  (health_tier_gap_falls_to_critical (795/10) (by norm_num)).1

/-- C7: with data present, a snapshot older than the 30-minute (1800 s)
staleness window reports the degraded state — 31 minutes (1860 s) included —
while a younger snapshot whose last fetch did not fail reports healthy —
29 minutes (1740 s) included. -/
theorem health_staleness_policy (fetchStatus : String) (age : ℚ) :
    (1800 < age → (healthState true fetchStatus (some age)).1 = "degraded")
    ∧ (age < 1800 → fetchStatus ≠ "failed" →
        healthState true fetchStatus (some age) = ("healthy", 200))
    ∧ healthState true "ok" (some 1860) = ("degraded", 200)
    ∧ healthState true "ok" (some 1740) = ("healthy", 200) := by
  refine ⟨?_, ?_,
    by simp [healthState, show ¬("ok" = "failed") by decide, show (1800:ℚ) < 1860 by norm_num],
    by simp [healthState, show ¬("ok" = "failed") by decide,
      show ¬((1800:ℚ) < 1740) by norm_num]⟩
  · intro hage
    by_cases hf : fetchStatus = "failed" <;>
      simp [healthState, hf, hage]
  · intro hage hf
    have : ¬ (1800:ℚ) < age := by linarith
    simp [healthState, hf, this]

/-- C7 witness: concrete 31-minute and 29-minute snapshot ages. -/
theorem health_staleness_policy_witness :
    (healthState true "ok" (some 1860)).1 = "degraded"
    ∧ healthState true "ok" (some 1740) = ("healthy", 200) :=
  ⟨(health_staleness_policy "ok" 1860).1 (by norm_num),
   (health_staleness_policy "ok" 1740).2.1 (by norm_num) (by decide)⟩

/-- C6: a loaded persisted snapshot whose (migrated) category keys do not
include every configured category key is discarded entirely — the startup
data becomes none and the process starts Cold (`_DATA_IS_FRESH` stays
false); a snapshot passing the validation is kept and treated as Fresh. -/
theorem startup_validation_discards_or_fresh (scores0 : Dict ℚ) :
    (¬ (∀ k ∈ dictKeys CATEGORY_WEIGHTS, k ∈ dictKeys (migrateSection scores0)) →
      startupData (some scores0) = (none, false))
    ∧ ((∀ k ∈ dictKeys CATEGORY_WEIGHTS, k ∈ dictKeys (migrateSection scores0)) →
      startupData (some scores0) = (some (migrateSection scores0), true))
    ∧ startupData none = (none, false) := by
  have hiff : ((dictKeys CATEGORY_WEIGHTS).all
      (fun k => (dictKeys (migrateSection scores0)).contains k) = true)
      ↔ (∀ k ∈ dictKeys CATEGORY_WEIGHTS, k ∈ dictKeys (migrateSection scores0)) := by
    simp [List.all_eq_true, List.contains, List.elem_iff]
  refine ⟨?_, ?_, rfl⟩
  · intro h
    have hcond : ¬ ((dictKeys CATEGORY_WEIGHTS).all
        (fun k => (dictKeys (migrateSection scores0)).contains k) = true) :=
      fun hb => h (hiff.mp hb)
    simp only [startupData]
    rw [if_neg hcond]
  · intro h
    simp only [startupData]
    rw [if_pos (hiff.mpr h)]

/-- C6 witness: a persisted state with keys {energy, weather} is rejected
under the six-category configuration (process starts Cold), while one with
all six configured keys is kept and marked Fresh. -/
theorem startup_validation_discards_or_fresh_witness :
    startupData (some [("energy", (50:ℚ)), ("weather", 50)]) = (none, false)
    ∧ startupData (some scenarioScores) = (some (migrateSection scenarioScores), true) :=
  ⟨(startup_validation_discards_or_fresh [("energy", 50), ("weather", 50)]).1 (by decide),
   (startup_validation_discards_or_fresh scenarioScores).2.1 (by decide)⟩

/-- Python `round(n, 1)` on an integer value is the identity. -/
theorem pyRoundInt_intCast (n : ℤ) : pyRoundInt ((n : ℚ)) = n := by
  simp only [pyRoundInt, Int.floor_intCast, sub_self]
  norm_num

/-- `round(x, 1)` fixes integers. -/
theorem pyRound1_intCast (n : ℤ) : pyRound1 ((n : ℚ)) = (n : ℚ) := by
  have h10 : (10 : ℚ) * (n : ℚ) = (((10 * n : ℤ) : ℚ)) := by push_cast; ring
  rw [pyRound1, h10, pyRoundInt_intCast]
  push_cast
  ring

/-- C8: for every port, given in-range scores for the five non-weather
categories: the renormalized non-weather weights sum to 1; the global
macro factor is exactly the scoring engine's composite of those categories
under the renormalized weights; the port score is the rounded clamp of
0.6·local + 0.4·global minus the news penalty, which is the sum of the
per-alert table penalties capped at 40 (direct: high 15 / medium 8 / low 3;
regional: high 8 / medium 4 / low 2); and the scenario local 90, global 70,
one direct high-severity alert scores 67. -/
theorem port_marker_score_formula (lw : ℚ) (scores : Dict ℚ) (alerts : List MatchedAlert)
    (hcov : ∀ c ∈ non_weather_cats, ∃ v, dictFind c scores = some v ∧ 0 ≤ v ∧ v ≤ 100) :
    dictValuesSum normalized_weights = 1
    ∧ compute_composite_index scores (some normalized_weights) = .ok (global_macro_score scores)
    ∧ (∃ p, p = min (news_penalty_raw alerts) 40 ∧ p ≤ 40 ∧
        port_score lw scores alerts =
          pyRound1 (max 0 (min 100 (lw * (60/100) + global_macro_score scores * (40/100) - p))))
    ∧ alert_penalty ⟨"high", .direct⟩ = 15 ∧ alert_penalty ⟨"medium", .direct⟩ = 8
    ∧ alert_penalty ⟨"low", .direct⟩ = 3 ∧ alert_penalty ⟨"high", .regional⟩ = 8
    ∧ alert_penalty ⟨"medium", .regional⟩ = 4 ∧ alert_penalty ⟨"low", .regional⟩ = 2
    ∧ port_score 90 scoresAll70 [⟨"high", .direct⟩] = 67 := by
  obtain ⟨ve, hve, hve0, hve1⟩ := hcov "energy" (by decide)
  obtain ⟨vs, hvs, hvs0, hvs1⟩ := hcov "supply_chain" (by decide)
  obtain ⟨vt, hvt, hvt0, hvt1⟩ := hcov "tariffs" (by decide)
  obtain ⟨vr, hvr, hvr0, hvr1⟩ := hcov "trucking" (by decide)
  obtain ⟨vg, hvg, hvg0, hvg1⟩ := hcov "geopolitical" (by decide)
  have hnws : dictValuesSum non_weather_weights = 9/10 := by
    simp +decide [non_weather_weights, non_weather_cats, dictValuesSum, CATEGORY_WEIGHTS,
      dictFind]
    norm_num
  have hnw : nw_weight_sum = 9/10 := by
    rw [nw_weight_sum, hnws, if_neg (by norm_num)]
  have hsum1 : dictValuesSum normalized_weights = 1 := by
    simp +decide [dictValuesSum, normalized_weights, non_weather_weights, non_weather_cats,
      CATEGORY_WEIGHTS, dictFind, hnw]
    norm_num
  have hgm : global_macro_score scores = ve * (2/9) + vs * (2/9) + vt * (1/6) + vr * (1/6)
      + vg * (2/9) := by
    simp +decide [global_macro_score, normalized_weights, non_weather_weights, non_weather_cats,
      CATEGORY_WEIGHTS, dictFind, hnw, hve, hvs, hvt, hvr, hvg]
    ring
  have hg0 : 0 ≤ global_macro_score scores := by rw [hgm]; nlinarith
  have hg1 : global_macro_score scores ≤ 100 := by rw [hgm]; nlinarith
  refine ⟨hsum1, ?_, ?_, ?_, ?_, ?_, ?_, ?_, ?_, ?_⟩
  · have hisc : npIsClose (dictValuesSum normalized_weights) 1 (1/100) = true := by
      apply npIsClose_of_abs_le
      rw [hsum1]
      norm_num
    have hy : ((dictKeys normalized_weights).any fun c => (dictFind c scores).isNone)
        = false := by
      have hk : dictKeys normalized_weights = non_weather_cats := by decide
      rw [hk, List.any_eq_false]
      intro c hc
      fin_cases hc <;> simp [hve, hvs, hvt, hvr, hvg]
    rw [cci_nonempty scores normalized_weights (by decide), if_neg (not_not_intro hisc),
      if_neg (ne_true_of_eq_false hy)]
    have hS : ((normalized_weights.map fun p => p.2 * ((dictFind p.1 scores).getD 0)).sum)
        = global_macro_score scores := by
      rw [hgm]
      simp +decide [normalized_weights, non_weather_weights, non_weather_cats,
        CATEGORY_WEIGHTS, dictFind, hnw, hve, hvs, hvt, hvr, hvg]
      ring
    rw [hS, npClip, min_eq_left hg1, max_eq_right hg0]
  · exact ⟨min (news_penalty_raw alerts) 40, rfl, min_le_right _ _, rfl⟩
  · simp +decide [alert_penalty, _DIRECT_PENALTY, dictFind]
  · simp +decide [alert_penalty, _DIRECT_PENALTY, dictFind]
  · simp +decide [alert_penalty, _DIRECT_PENALTY, dictFind]
  · simp +decide [alert_penalty, _REGIONAL_PENALTY, dictFind]
  · simp +decide [alert_penalty, _REGIONAL_PENALTY, dictFind]
  · simp +decide [alert_penalty, _REGIONAL_PENALTY, dictFind]
  · have hg70 : global_macro_score scoresAll70 = 70 := by
      simp +decide [global_macro_score, normalized_weights, non_weather_weights, non_weather_cats,
        CATEGORY_WEIGHTS, dictFind, scoresAll70, hnw]
      norm_num
    have hp15 : news_penalty_raw [⟨"high", MatchKind.direct⟩] = 15 := by
      simp +decide [news_penalty_raw, alert_penalty, _DIRECT_PENALTY, dictFind]
    simp only [port_score, hg70, hp15]
    rw [min_eq_left (by norm_num : (15:ℚ) ≤ 40)]
    have hin : (90:ℚ) * (60/100) + 70 * (40/100) - 15 = 67 := by norm_num
    rw [hin, min_eq_right (by norm_num : (67:ℚ) ≤ 100),
      max_eq_right (by norm_num : (0:ℚ) ≤ 67)]
    have h67 : ((67:ℤ) : ℚ) = (67:ℚ) := by norm_num
    rw [← h67, pyRound1_intCast]

/-- C8 witness: the scenario itself — every non-weather category at 70,
local weather 90, one direct high-severity alert — satisfies the coverage
hypothesis and scores 67. -/
theorem port_marker_score_formula_witness :
    port_score 90 scoresAll70 [⟨"high", .direct⟩] = 67
    ∧ dictValuesSum normalized_weights = 1 := by
  have h := port_marker_score_formula 90 scoresAll70 [⟨"high", .direct⟩] ?_
  · exact ⟨h.2.2.2.2.2.2.2.2.2, h.1⟩
  · intro c hc
    fin_cases hc
    · exact ⟨70, by decide, by norm_num, by norm_num⟩
    · exact ⟨70, by decide, by norm_num, by norm_num⟩
    · exact ⟨70, by decide, by norm_num, by norm_num⟩
    · exact ⟨70, by decide, by norm_num, by norm_num⟩
    · exact ⟨70, by decide, by norm_num, by norm_num⟩

/-- C5: serializing a dashboard snapshot with `set_cached_dashboard` and
deserializing with `reconstruct_dashboard_state` preserves the category
scores exactly and every per-category history value list exactly (the model
is exact rationals, so "within floating-point tolerance" holds with
equality) — in both the restored-series case and every best-effort
fallback case. -/
theorem dashboard_persistence_roundtrip (d : DashState) :
    (reconstruct_dashboard_state (set_cached_dashboard d)).current_scores = d.current_scores
    ∧ ∀ cat, reconHistoryValues (reconstruct_dashboard_state (set_cached_dashboard d)) cat
        = (dictFind cat d.category_history).map PdSeries.values := by
  have hmap : ∀ cat, dictFind cat (d.category_history.map (fun p => (p.1, p.2.values)))
      = (dictFind cat d.category_history).map PdSeries.values :=
    fun cat => dictFind_map_value cat PdSeries.values d.category_history
  unfold reconstruct_dashboard_state set_cached_dashboard
  cases hp : parseDates (List.map isoOfDay d.dates) with
  | none =>
    dsimp only
    exact ⟨rfl, fun cat => hmap cat⟩
  | some idx =>
    dsimp only
    split
    · refine ⟨rfl, fun cat => ?_⟩
      simp only [reconHistoryValues]
      rw [dictFind_map_value cat (fun v => PdSeries.mk idx v) _, hmap cat]
      cases dictFind cat d.category_history <;> rfl
    · exact ⟨rfl, fun cat => hmap cat⟩

/-- The accumulation of `sum(df[cat] * w for cat, w in weights.items())`
acts pointwise: the folded series keeps the accumulator's length and its
i-th entry is the accumulator's i-th entry plus the weighted sum of the
i-th entries of the category series. -/
theorem seriesFold_spec (hist : Dict (List ℚ)) (ws : Dict ℚ) :
    ∀ (acc : List ℚ),
    (∀ c ∈ dictKeys ws, ∃ vs, dictFind c hist = some vs ∧ vs.length = acc.length) →
    ((ws.foldl (fun a p => seriesAdd a (seriesScale p.2 ((dictFind p.1 hist).getD []))) acc).length
        = acc.length
     ∧ ∀ i, i < acc.length →
        (ws.foldl (fun a p => seriesAdd a (seriesScale p.2 ((dictFind p.1 hist).getD []))) acc).getD i 0
          = acc.getD i 0
            + ((ws.map (fun p => p.2 * (((dictFind p.1 hist).getD []).getD i 0))).sum)) := by
  induction ws with
  | nil => intro acc _; simp
  | cons p ps ih =>
    intro acc hcov
    obtain ⟨vs, hvs, hlen⟩ := hcov p.1 (by simp [dictKeys])
    have hacc' : (seriesAdd acc (seriesScale p.2 ((dictFind p.1 hist).getD []))).length
        = acc.length := by
      rw [hvs]
      simp [seriesAdd, seriesScale, List.length_zipWith, hlen]
    have hcov' : ∀ c ∈ dictKeys ps, ∃ vs2, dictFind c hist = some vs2
        ∧ vs2.length = (seriesAdd acc (seriesScale p.2 ((dictFind p.1 hist).getD []))).length := by
      intro c hc
      obtain ⟨vs2, h1, h2⟩ := hcov c (by simp [dictKeys] at hc ⊢; exact Or.inr hc)
      exact ⟨vs2, h1, by rw [hacc']; exact h2⟩
    have ihres := ih (seriesAdd acc (seriesScale p.2 ((dictFind p.1 hist).getD []))) hcov'
    refine ⟨by rw [List.foldl_cons, ihres.1, hacc'], ?_⟩
    intro i hi
    have hi' : i < (seriesAdd acc (seriesScale p.2 ((dictFind p.1 hist).getD []))).length := by
      rw [hacc']
      exact hi
    rw [List.foldl_cons, ihres.2 i hi']
    have hiv : i < vs.length := by rw [hlen]; exact hi
    have hstep : (seriesAdd acc (seriesScale p.2 ((dictFind p.1 hist).getD []))).getD i 0
        = acc.getD i 0 + p.2 * (((dictFind p.1 hist).getD []).getD i 0) := by
      rw [hvs]
      simp only [Option.getD_some, seriesAdd, seriesScale]
      have hz : i < (List.zipWith (· + ·) acc (vs.map (fun x => p.2 * x))).length := by
        rw [List.length_zipWith]
        simp only [List.length_map]
        exact lt_min hi hiv
      rw [List.getD_eq_getElem _ _ hz, List.getElem_zipWith,
        List.getD_eq_getElem _ _ hi, List.getD_eq_getElem _ _ hiv, List.getElem_map]
    rw [hstep]
    simp only [List.map_cons, List.sum_cons]
    ring

/-- C9: when all per-category history series share one date axis of length
`n` and cover every weighted category (weights valid and nonempty),
`compute_composite_series` succeeds with a series of length `n` whose value
at every position equals exactly what `compute_composite_index` returns on
the per-category scores at that position with the same weights — the
pointwise [0,100]-clamped weighted sum. -/
theorem composite_series_pointwise_refines_index (n : Nat) (hist : Dict (List ℚ))
    (ws : Dict ℚ) (hne : ws ≠ [])
    (hsum : |dictValuesSum ws - 1| ≤ 1/100)
    (hcov : ∀ c ∈ dictKeys ws, ∃ vs, dictFind c hist = some vs ∧ vs.length = n) :
    ∃ out, compute_composite_series n hist (some ws) = some out
      ∧ out.length = n
      ∧ ∀ i, i < n →
        compute_composite_index (hist.map (fun p => (p.1, p.2.getD i 0))) (some ws)
          = .ok (out.getD i 0) := by
  have hempty : ws.isEmpty = false := List.isEmpty_eq_false.mpr hne
  have hanyh : ((dictKeys ws).any fun c => (dictFind c hist).isNone) = false := by
    rw [List.any_eq_false]
    intro c hc
    obtain ⟨vs, h1, -⟩ := hcov c hc
    simp [h1]
  have hser : compute_composite_series n hist (some ws)
      = some (seriesClip (ws.foldl
          (fun a p => seriesAdd a (seriesScale p.2 ((dictFind p.1 hist).getD [])))
          (List.replicate n 0))) := by
    simp only [compute_composite_series, hempty, Bool.false_eq_true, if_false]
    rw [if_neg (ne_true_of_eq_false hanyh)]
  have hfold := seriesFold_spec hist ws (List.replicate n 0) (by
    intro c hc
    obtain ⟨vs, h1, h2⟩ := hcov c hc
    exact ⟨vs, h1, by simp [h2]⟩)
  have hLlen : (ws.foldl
      (fun a p => seriesAdd a (seriesScale p.2 ((dictFind p.1 hist).getD [])))
      (List.replicate n 0)).length = n := by
    rw [hfold.1, List.length_replicate]
  refine ⟨_, hser, by simp [seriesClip, hLlen], ?_⟩
  intro i hi
  have hiL : i < (ws.foldl
      (fun a p => seriesAdd a (seriesScale p.2 ((dictFind p.1 hist).getD [])))
      (List.replicate n 0)).length := by rw [hLlen]; exact hi
  have hclose : npIsClose (dictValuesSum ws) 1 (1/100) = true := npIsClose_of_abs_le hsum
  have hanyp : ((dictKeys ws).any
      fun c => (dictFind c (hist.map (fun p => (p.1, p.2.getD i 0)))).isNone) = false := by
    rw [List.any_eq_false]
    intro c hc
    obtain ⟨vs, h1, -⟩ := hcov c hc
    rw [dictFind_map_value c (fun v : List ℚ => v.getD i 0) hist]
    simp [h1]
  rw [cci_nonempty _ _ hempty, if_neg (not_not_intro hclose),
    if_neg (ne_true_of_eq_false hanyp)]
  have hout : (seriesClip (ws.foldl
      (fun a p => seriesAdd a (seriesScale p.2 ((dictFind p.1 hist).getD [])))
      (List.replicate n 0))).getD i 0
      = npClip ((ws.foldl
          (fun a p => seriesAdd a (seriesScale p.2 ((dictFind p.1 hist).getD [])))
          (List.replicate n 0)).getD i 0) 0 100 := by
    rw [seriesClip, List.getD_eq_getElem _ _ (by simpa using hiL), List.getElem_map,
      List.getD_eq_getElem _ _ hiL]
  have hrep : i < (List.replicate n (0:ℚ)).length := by simpa using hi
  have hrep0 : (List.replicate n (0:ℚ)).getD i 0 = 0 := by
    rw [List.getD_eq_getElem _ _ hrep, List.getElem_replicate]
  have hmapcong : (ws.map fun p =>
        p.2 * ((dictFind p.1 (hist.map (fun q => (q.1, q.2.getD i 0)))).getD 0))
      = ws.map fun p => p.2 * (((dictFind p.1 hist).getD []).getD i 0) := by
    apply List.map_congr_left
    intro p hp
    obtain ⟨vs, h1, -⟩ := hcov p.1 (List.mem_map_of_mem Prod.fst hp)
    rw [dictFind_map_value p.1 (fun v : List ℚ => v.getD i 0) hist, h1]
    simp
  rw [hout, hfold.2 i hrep, hrep0, zero_add, hmapcong]

/-- C9 witness: two categories with equal weights over a two-point shared
axis; the composite series is the pointwise clamped weighted sum and the
index agrees at both positions. -/
theorem composite_series_pointwise_refines_index_witness :
    ∃ out, compute_composite_series 2 [("a", [90, 10]), ("b", [50, 30])]
        (some [("a", 1/2), ("b", 1/2)]) = some out
      ∧ out.length = 2
      ∧ ∀ i, i < 2 →
        compute_composite_index
            ([("a", [(90:ℚ), 10]), ("b", [50, 30])].map (fun p => (p.1, p.2.getD i 0)))
            (some [("a", 1/2), ("b", 1/2)])
          = .ok (out.getD i 0) := by
  refine composite_series_pointwise_refines_index 2 [("a", [90, 10]), ("b", [50, 30])]
    [("a", 1/2), ("b", 1/2)] (by decide) ?_ ?_
  · rw [show dictValuesSum [("a", (1:ℚ)/2), ("b", 1/2)] = 1 by norm_num [dictValuesSum]]
    norm_num
  · intro c hc
    simp only [dictKeys, List.map_cons, List.map_nil, List.mem_cons, List.not_mem_nil,
      or_false] at hc
    rcases hc with rfl | rfl
    · exact ⟨[90, 10], by decide, by decide⟩
    · exact ⟨[50, 30], by decide, by decide⟩

/-- The collection loop only appends entries: its result on any accumulator
is the accumulator's sections followed by the sections built from empty. -/
theorem collect_fields (dates : List Int) (outcome : String → FetchOutcome) :
    ∀ (cs : List String) (acc : Snapshot),
    (collectCompleted dates outcome cs acc).current_scores
        = acc.current_scores ++ (collectCompleted dates outcome cs ⟨[], [], []⟩).current_scores
    ∧ (collectCompleted dates outcome cs acc).category_history
        = acc.category_history
          ++ (collectCompleted dates outcome cs ⟨[], [], []⟩).category_history
    ∧ (collectCompleted dates outcome cs acc).provider_errors
        = acc.provider_errors
          ++ (collectCompleted dates outcome cs ⟨[], [], []⟩).provider_errors := by
  intro cs
  induction cs with
  | nil => intro acc; simp [collectCompleted]
  | cons c0 cs ih =>
    intro acc
    cases ho : outcome c0 with
    | neverCompleted =>
      simp only [collectCompleted, ho]
      exact ih acc
    | completed cur hist =>
      simp only [collectCompleted, ho]
      have h1 := ih (processProvider dates acc c0 cur hist)
      have h2 := ih (processProvider dates ⟨[], [], []⟩ c0 cur hist)
      refine ⟨?_, ?_, ?_⟩
      · rw [h1.1, h2.1]
        simp [processProvider, List.append_assoc]
      · rw [h1.2.1, h2.2.1]
        simp [processProvider, List.append_assoc]
      · rw [h1.2.2, h2.2.2]
        cases he : (fetchProviderData cur hist).errorMsg <;>
          simp [processProvider, he, List.append_assoc]

/-- A category outside the processed list never appears in the collected
sections. -/
theorem collect_find_not_mem (dates : List Int) (outcome : String → FetchOutcome) :
    ∀ (cs : List String) (c : String), c ∉ cs →
    dictFind c (collectCompleted dates outcome cs ⟨[], [], []⟩).current_scores = none
    ∧ dictFind c (collectCompleted dates outcome cs ⟨[], [], []⟩).category_history = none
    ∧ dictFind c (collectCompleted dates outcome cs ⟨[], [], []⟩).provider_errors = none := by
  intro cs
  induction cs with
  | nil => intro c _; simp [collectCompleted]
  | cons c0 cs ih =>
    intro c hc
    have hsplit : c ≠ c0 ∧ c ∉ cs := by
      rw [List.mem_cons] at hc
      push_neg at hc
      exact hc
    cases ho : outcome c0 with
    | neverCompleted =>
      simp only [collectCompleted, ho]
      exact ih c hsplit.2
    | completed cur hist =>
      simp only [collectCompleted, ho]
      have hd := collect_fields dates outcome cs (processProvider dates ⟨[], [], []⟩ c0 cur hist)
      have hne : ¬ (c0 = c) := fun h => hsplit.1 h.symm
      refine ⟨?_, ?_, ?_⟩
      · rw [hd.1, dictFind_append]
        have h0 : dictFind c (processProvider dates ⟨[], [], []⟩ c0 cur hist).current_scores
            = none := by
          simp [processProvider, hne]
        rw [h0]
        simpa using (ih c hsplit.2).1
      · rw [hd.2.1, dictFind_append]
        have h0 : dictFind c (processProvider dates ⟨[], [], []⟩ c0 cur hist).category_history
            = none := by
          simp [processProvider, hne]
        rw [h0]
        simpa using (ih c hsplit.2).2.1
      · rw [hd.2.2, dictFind_append]
        have h0 : dictFind c (processProvider dates ⟨[], [], []⟩ c0 cur hist).provider_errors
            = none := by
          cases he : (fetchProviderData cur hist).errorMsg <;>
            simp [processProvider, he, hne]
        rw [h0]
        simpa using (ih c hsplit.2).2.2

/-- Lookup characterization of the collection loop for a completed
provider: its score, stored history and error string are exactly those of
`fetchProviderData`. -/
theorem collect_find_spec (dates : List Int) (outcome : String → FetchOutcome) :
    ∀ (cs : List String), cs.Nodup → ∀ c ∈ cs,
    ∀ cur hist, outcome c = .completed cur hist →
    dictFind c (collectCompleted dates outcome cs ⟨[], [], []⟩).current_scores
        = some (fetchProviderData cur hist).score
    ∧ dictFind c (collectCompleted dates outcome cs ⟨[], [], []⟩).category_history
        = some (storedHistory dates (fetchProviderData cur hist))
    ∧ dictFind c (collectCompleted dates outcome cs ⟨[], [], []⟩).provider_errors
        = (fetchProviderData cur hist).errorMsg := by
  intro cs
  induction cs with
  | nil => intro _ c hc; exact absurd hc (List.not_mem_nil c)
  | cons c0 cs ih =>
    intro hnd c hc cur hist ho
    have hnd' : c0 ∉ cs ∧ cs.Nodup := by
      rw [List.nodup_cons] at hnd
      exact hnd
    rcases List.mem_cons.mp hc with rfl | hmem
    · -- the head category itself
      simp only [collectCompleted, ho]
      have hd := collect_fields dates outcome cs (processProvider dates ⟨[], [], []⟩ c cur hist)
      have hnm := collect_find_not_mem dates outcome cs c hnd'.1
      refine ⟨?_, ?_, ?_⟩
      · rw [hd.1, dictFind_append]
        have h0 : dictFind c (processProvider dates ⟨[], [], []⟩ c cur hist).current_scores
            = some (fetchProviderData cur hist).score := by
          simp [processProvider]
        rw [h0]
        rfl
      · rw [hd.2.1, dictFind_append]
        have h0 : dictFind c (processProvider dates ⟨[], [], []⟩ c cur hist).category_history
            = some (storedHistory dates (fetchProviderData cur hist)) := by
          simp [processProvider]
        rw [h0]
        rfl
      · rw [hd.2.2, dictFind_append]
        cases he : (fetchProviderData cur hist).errorMsg with
        | none =>
          have h0 : dictFind c (processProvider dates ⟨[], [], []⟩ c cur hist).provider_errors
              = none := by
            simp [processProvider, he]
          rw [h0]
          simpa using hnm.2.2
        | some e =>
          have h0 : dictFind c (processProvider dates ⟨[], [], []⟩ c cur hist).provider_errors
              = some e := by
            simp [processProvider, he]
          rw [h0]
          rfl
    · -- the head is a different category
      have hne : ¬ (c0 = c) := fun h => hnd'.1 (h ▸ hmem)
      have ihres := ih hnd'.2 c hmem cur hist ho
      cases ho0 : outcome c0 with
      | neverCompleted =>
        simp only [collectCompleted, ho0]
        exact ihres
      | completed cur0 hist0 =>
        simp only [collectCompleted, ho0]
        have hd := collect_fields dates outcome cs
          (processProvider dates ⟨[], [], []⟩ c0 cur0 hist0)
        refine ⟨?_, ?_, ?_⟩
        · rw [hd.1, dictFind_append]
          have h0 : dictFind c (processProvider dates ⟨[], [], []⟩ c0 cur0 hist0).current_scores
              = none := by simp [processProvider, hne]
          rw [h0]
          simpa using ihres.1
        · rw [hd.2.1, dictFind_append]
          have h0 : dictFind c
              (processProvider dates ⟨[], [], []⟩ c0 cur0 hist0).category_history = none := by
            simp [processProvider, hne]
          rw [h0]
          simpa using ihres.2.1
        · rw [hd.2.2, dictFind_append]
          have h0 : dictFind c
              (processProvider dates ⟨[], [], []⟩ c0 cur0 hist0).provider_errors = none := by
            cases he : (fetchProviderData cur0 hist0).errorMsg <;>
              simp [processProvider, he, hne]
          rw [h0]
          simpa using ihres.2.2

/-- A provider that never completed leaves no trace in the collected
sections. -/
theorem collect_find_never (dates : List Int) (outcome : String → FetchOutcome) :
    ∀ (cs : List String), cs.Nodup → ∀ c ∈ cs, outcome c = .neverCompleted →
    dictFind c (collectCompleted dates outcome cs ⟨[], [], []⟩).current_scores = none
    ∧ dictFind c (collectCompleted dates outcome cs ⟨[], [], []⟩).category_history = none
    ∧ dictFind c (collectCompleted dates outcome cs ⟨[], [], []⟩).provider_errors = none := by
  intro cs
  induction cs with
  | nil => intro _ c hc; exact absurd hc (List.not_mem_nil c)
  | cons c0 cs ih =>
    intro hnd c hc ho
    have hnd' : c0 ∉ cs ∧ cs.Nodup := by
      rw [List.nodup_cons] at hnd
      exact hnd
    rcases List.mem_cons.mp hc with rfl | hmem
    · simp only [collectCompleted, ho]
      exact collect_find_not_mem dates outcome cs c hnd'.1
    · have hne : ¬ (c0 = c) := fun h => hnd'.1 (h ▸ hmem)
      have ihres := ih hnd'.2 c hmem ho
      cases ho0 : outcome c0 with
      | neverCompleted =>
        simp only [collectCompleted, ho0]
        exact ihres
      | completed cur0 hist0 =>
        simp only [collectCompleted, ho0]
        have hd := collect_fields dates outcome cs
          (processProvider dates ⟨[], [], []⟩ c0 cur0 hist0)
        refine ⟨?_, ?_, ?_⟩
        · rw [hd.1, dictFind_append]
          have h0 : dictFind c (processProvider dates ⟨[], [], []⟩ c0 cur0 hist0).current_scores
              = none := by simp [processProvider, hne]
          rw [h0]
          simpa using ihres.1
        · rw [hd.2.1, dictFind_append]
          have h0 : dictFind c
              (processProvider dates ⟨[], [], []⟩ c0 cur0 hist0).category_history = none := by
            simp [processProvider, hne]
          rw [h0]
          simpa using ihres.2.1
        · rw [hd.2.2, dictFind_append]
          have h0 : dictFind c
              (processProvider dates ⟨[], [], []⟩ c0 cur0 hist0).provider_errors = none := by
            cases he : (fetchProviderData cur0 hist0).errorMsg <;>
              simp [processProvider, he, hne]
          rw [h0]
          simpa using ihres.2.2

/-- The fill loop never touches a category that already has a score. -/
theorem fill_preserve (dates : List Int) :
    ∀ (cs : List String) (acc : Snapshot) (c : String),
    (dictFind c acc.current_scores).isSome = true →
    dictFind c (fillMissing dates cs acc).current_scores = dictFind c acc.current_scores
    ∧ dictFind c (fillMissing dates cs acc).category_history
        = dictFind c acc.category_history
    ∧ dictFind c (fillMissing dates cs acc).provider_errors
        = dictFind c acc.provider_errors := by
  intro cs
  induction cs with
  | nil => intro acc c _; exact ⟨rfl, rfl, rfl⟩
  | cons c0 cs ih =>
    intro acc c hc
    simp only [fillMissing]
    by_cases h0 : (dictFind c0 acc.current_scores).isSome = true
    · rw [if_pos h0]
      exact ih acc c hc
    · rw [if_neg h0]
      have hne : ¬ (c0 = c) := by
        rintro rfl
        exact h0 hc
      have hs : dictFind c (acc.current_scores ++ [(c0, 50)]) = dictFind c acc.current_scores := by
        rw [dictFind_append]
        cases hf : dictFind c acc.current_scores <;> simp [hne]
      have hh : dictFind c (acc.category_history
          ++ [(c0, _make_fallback_series dates 50)]) = dictFind c acc.category_history := by
        rw [dictFind_append]
        cases hf : dictFind c acc.category_history <;> simp [hne]
      have he : dictFind c (acc.provider_errors ++ [(c0, "Provider timed out")])
          = dictFind c acc.provider_errors := by
        rw [dictFind_append]
        cases hf : dictFind c acc.provider_errors <;> simp [hne]
      have ihres := ih ⟨acc.current_scores ++ [(c0, 50)],
        acc.category_history ++ [(c0, _make_fallback_series dates 50)],
        acc.provider_errors ++ [(c0, "Provider timed out")]⟩ c (by rw [hs]; exact hc)
      exact ⟨by rw [ihres.1]; exact hs, by rw [ihres.2.1]; exact hh, by rw [ihres.2.2]; exact he⟩

/-- The fill loop gives every still-missing listed category the neutral
score 50, the flat fallback history, and the timeout error string. -/
theorem fill_fills (dates : List Int) :
    ∀ (cs : List String) (acc : Snapshot) (c : String), c ∈ cs →
    dictFind c acc.current_scores = none →
    dictFind c acc.category_history = none →
    dictFind c acc.provider_errors = none →
    dictFind c (fillMissing dates cs acc).current_scores = some 50
    ∧ dictFind c (fillMissing dates cs acc).category_history
        = some (_make_fallback_series dates 50)
    ∧ dictFind c (fillMissing dates cs acc).provider_errors = some "Provider timed out" := by
  intro cs
  induction cs with
  | nil => intro acc c hc; exact absurd hc (List.not_mem_nil c)
  | cons c0 cs ih =>
    intro acc c hc h1 h2 h3
    simp only [fillMissing]
    by_cases hceq : c0 = c
    · subst hceq
      rw [if_neg (by simp [h1])]
      have hs : dictFind c0 (acc.current_scores ++ [(c0, 50)]) = some 50 := by
        rw [dictFind_append, h1]
        simp
      have hh : dictFind c0 (acc.category_history ++ [(c0, _make_fallback_series dates 50)])
          = some (_make_fallback_series dates 50) := by
        rw [dictFind_append, h2]
        simp
      have he : dictFind c0 (acc.provider_errors ++ [(c0, "Provider timed out")])
          = some "Provider timed out" := by
        rw [dictFind_append, h3]
        simp
      have hres := fill_preserve dates cs ⟨acc.current_scores ++ [(c0, 50)],
        acc.category_history ++ [(c0, _make_fallback_series dates 50)],
        acc.provider_errors ++ [(c0, "Provider timed out")]⟩ c0 (by rw [hs]; rfl)
      exact ⟨by rw [hres.1]; exact hs, by rw [hres.2.1]; exact hh, by rw [hres.2.2]; exact he⟩
    · have hmem : c ∈ cs := by
        rcases List.mem_cons.mp hc with h | h
        · exact absurd h.symm hceq
        · exact h
      by_cases h0 : (dictFind c0 acc.current_scores).isSome = true
      · rw [if_pos h0]
        exact ih acc c hmem h1 h2 h3
      · rw [if_neg h0]
        have hs : dictFind c (acc.current_scores ++ [(c0, 50)]) = none := by
          rw [dictFind_append, h1]
          simp [hceq]
        have hh : dictFind c (acc.category_history
            ++ [(c0, _make_fallback_series dates 50)]) = none := by
          rw [dictFind_append, h2]
          simp [hceq]
        have he : dictFind c (acc.provider_errors ++ [(c0, "Provider timed out")]) = none := by
          rw [dictFind_append, h3]
          simp [hceq]
        exact ih ⟨acc.current_scores ++ [(c0, 50)],
          acc.category_history ++ [(c0, _make_fallback_series dates 50)],
          acc.provider_errors ++ [(c0, "Provider timed out")]⟩ c hmem hs hh he

/-- The keys collected from the completed futures are exactly the
completed categories, in registry order. -/
theorem collect_keys (dates : List Int) (outcome : String → FetchOutcome) :
    ∀ (cs : List String),
    dictKeys (collectCompleted dates outcome cs ⟨[], [], []⟩).current_scores
      = cs.filter (isCompleted outcome) := by
  intro cs
  induction cs with
  | nil => simp [collectCompleted, dictKeys]
  | cons c0 cs ih =>
    cases ho : outcome c0 with
    | neverCompleted =>
      simp only [collectCompleted, ho]
      rw [List.filter_cons]
      simp only [isCompleted, ho]
      simpa using ih
    | completed cur hist =>
      simp only [collectCompleted, ho]
      have hd := collect_fields dates outcome cs (processProvider dates ⟨[], [], []⟩ c0 cur hist)
      rw [List.filter_cons]
      simp only [isCompleted, ho, if_pos]
      rw [show dictKeys (collectCompleted dates outcome cs
          (processProvider dates ⟨[], [], []⟩ c0 cur hist)).current_scores
          = dictKeys (processProvider dates ⟨[], [], []⟩ c0 cur hist).current_scores
            ++ dictKeys (collectCompleted dates outcome cs ⟨[], [], []⟩).current_scores by
        rw [dictKeys, hd.1, List.map_append]; rfl]
      rw [ih]
      simp [processProvider, dictKeys]

/-- The keys after the fill loop are the accumulator's keys followed by the
listed categories that were still missing (list without duplicates). -/
theorem fill_keys (dates : List Int) :
    ∀ (cs : List String), cs.Nodup → ∀ (acc : Snapshot),
    dictKeys (fillMissing dates cs acc).current_scores
      = dictKeys acc.current_scores
        ++ cs.filter (fun c => (dictFind c acc.current_scores).isNone) := by
  intro cs
  induction cs with
  | nil => intro _ acc; simp [fillMissing]
  | cons c0 cs ih =>
    intro hnd acc
    have hnd' : c0 ∉ cs ∧ cs.Nodup := by
      rw [List.nodup_cons] at hnd
      exact hnd
    simp only [fillMissing]
    by_cases h0 : (dictFind c0 acc.current_scores).isSome = true
    · rw [if_pos h0, ih hnd'.2 acc, List.filter_cons]
      have hn0 : (dictFind c0 acc.current_scores).isNone = false := by
        cases hf : dictFind c0 acc.current_scores
        · rw [hf] at h0
          exact absurd h0 (by simp)
        · simp
      simp [hn0]
    · rw [if_neg h0]
      have hnone : dictFind c0 acc.current_scores = none := by
        cases hf : dictFind c0 acc.current_scores
        · rfl
        · rw [hf] at h0
          exact absurd (by simp) h0
      rw [ih hnd'.2 ⟨acc.current_scores ++ [(c0, 50)],
        acc.category_history ++ [(c0, _make_fallback_series dates 50)],
        acc.provider_errors ++ [(c0, "Provider timed out")]⟩]
      have hfeq : cs.filter (fun c => (dictFind c (acc.current_scores ++ [(c0, 50)])).isNone)
          = cs.filter (fun c => (dictFind c acc.current_scores).isNone) := by
        apply List.filter_congr
        intro c hcm
        have hne : ¬ (c0 = c) := fun h => hnd'.1 (h ▸ hcm)
        rw [dictFind_append]
        cases hf : dictFind c acc.current_scores <;> simp [hne]
      rw [List.filter_cons]
      simp only [hnone, Option.isNone_none, if_pos]
      show dictKeys (acc.current_scores ++ [(c0, 50)]) ++ _ = _
      rw [dictKeys, List.map_append, hfeq]
      simp [dictKeys]

theorem setLastValue_length (s : List ℚ) (v : ℚ) : (setLastValue s v).length = s.length := by
  cases s with
  | nil => rfl
  | cons a as =>
    simp [setLastValue, List.length_dropLast]

theorem setLastValue_getLast (s : List ℚ) (v : ℚ) (h : s ≠ []) :
    (setLastValue s v).getLast? = some v := by
  rw [setLastValue, if_neg (by simp [List.isEmpty_eq_false, h])]
  exact List.getLast?_concat _

theorem alignHistory_length (src : HistSeries) (dates : List Int) (score : ℚ) :
    (alignHistory src dates score).length = dates.length := by
  rw [alignHistory, setLastValue_length]
  simp

theorem alignHistory_getLast (src : HistSeries) (dates : List Int) (score : ℚ)
    (h : dates ≠ []) : (alignHistory src dates score).getLast? = some score := by
  rw [alignHistory]
  apply setLastValue_getLast
  simp [h]

theorem canonicalDates_length (endDay : Int) : (canonicalDates endDay).length = HISTORY_DAYS := by
  rw [canonicalDates, List.length_map, List.length_range]

theorem canonicalDates_ne_nil (endDay : Int) : canonicalDates endDay ≠ [] := by
  intro h
  have := canonicalDates_length endDay
  rw [h] at this
  simp [HISTORY_DAYS] at this

/-- The first point of the aligned history is the forward-filled source
value at the earliest canonical date (falling back to the score), as long
as the axis has at least two days, so the final-point overwrite does not
reach it. -/
theorem alignHistory_getD_zero (src : HistSeries) (dates : List Int) (score : ℚ)
    (h2 : 2 ≤ dates.length) :
    (alignHistory src dates score).getD 0 0 = (ffillAt src (dates.getD 0 0)).getD score := by
  have hlen : ((dates.map (fun d => ffillAt src d)).map (fun x => x.getD score)).length
      = dates.length := by simp
  have hne : ((dates.map (fun d => ffillAt src d)).map (fun x => x.getD score)) ≠ [] := by
    apply List.ne_nil_of_length_pos
    rw [hlen]
    omega
  have hbe : ((dates.map (fun d => ffillAt src d)).map (fun x => x.getD score)).isEmpty
      = false := List.isEmpty_eq_false.mpr hne
  rw [alignHistory, setLastValue, if_neg (ne_true_of_eq_false hbe)]
  have hdl : 0 < (((dates.map (fun d => ffillAt src d)).map
      (fun x => x.getD score)).dropLast).length := by
    rw [List.length_dropLast, hlen]
    omega
  have happ : 0 < ((((dates.map (fun d => ffillAt src d)).map
      (fun x => x.getD score)).dropLast) ++ [score]).length := by
    simp only [List.length_append]
    omega
  rw [List.getD_eq_getElem _ _ happ, List.getElem_append_left hdl, List.getElem_dropLast]
  have h0 : 0 < dates.length := by omega
  rw [List.getElem_map, List.getElem_map, ← List.getD_eq_getElem dates 0 h0]

/-- C2 counterexample: a cycle where the weather provider raises on
`fetch_current` but returns a non-empty history.  The snapshot holds the
neutral score 50 and the recorded error, but its history is not the flat
fallback series: it is exactly the reindexed real series (first point 40)
with its last point forced to the fallback score 50, so the claim's "flat
fallback history for every category whose provider raised" fails. -/
theorem aggregate_raised_current_history_not_flat :
    cexOutcome "weather" = .completed (.error "boom") (.ok [(-89, 40)])
    ∧ dictFind "weather" (aggregate_data ["weather"] cexOutcome 0).current_scores = some 50
    ∧ dictFind "weather" (aggregate_data ["weather"] cexOutcome 0).provider_errors
        = some "boom"
    ∧ dictFind "weather" (aggregate_data ["weather"] cexOutcome 0).category_history
        ≠ some (_make_fallback_series (canonicalDates 0) 50)
    ∧ dictFind "weather" (aggregate_data ["weather"] cexOutcome 0).category_history
        = some (alignHistory [(-89, 40)] (canonicalDates 0) 50)
    ∧ (alignHistory [((-89 : Int), (40:ℚ))] (canonicalDates 0) 50).getLast? = some 50 := by
  have hout : cexOutcome "weather" = .completed (.error "boom") (.ok [(-89, 40)]) := rfl
  have hcf := collect_find_spec (canonicalDates 0) cexOutcome ["weather"] (by simp)
    "weather" (by simp) (.error "boom") (.ok [(-89, 40)]) hout
  have hr : fetchProviderData (Except.error "boom") (Except.ok [((-89 : Int), (40:ℚ))])
      = ⟨50, some [(-89, 40)], some "boom"⟩ := rfl
  have hstored : storedHistory (canonicalDates 0)
      (fetchProviderData (Except.error "boom") (Except.ok [((-89 : Int), (40:ℚ))]))
      = alignHistory [(-89, 40)] (canonicalDates 0) 50 := by
    rw [hr]
    rfl
  have hfp := fill_preserve (canonicalDates 0) ["weather"]
    (collectCompleted (canonicalDates 0) cexOutcome ["weather"] ⟨[], [], []⟩)
    "weather" (by rw [hcf.1]; rfl)
  have hagg : aggregate_data ["weather"] cexOutcome 0
      = fillMissing (canonicalDates 0) ["weather"]
          (collectCompleted (canonicalDates 0) cexOutcome ["weather"] ⟨[], [], []⟩) := rfl
  refine ⟨hout, ?_, ?_, ?_, ?_,
    alignHistory_getLast _ _ _ (canonicalDates_ne_nil 0)⟩
  · rw [hagg, hfp.1, hcf.1, hr]
  · rw [hagg, hfp.2.2, hcf.2.2, hr]
  · rw [hagg, hfp.2.1, hcf.2.1, hstored]
    intro heq
    have hlists : alignHistory [(-89, 40)] (canonicalDates 0) 50
        = _make_fallback_series (canonicalDates 0) 50 := Option.some.inj heq
    have hd0 : (canonicalDates 0).getD 0 0 = -89 := by decide
    have hff : (ffillAt [((-89 : Int), (40:ℚ))] (-89)).getD 50 = 40 := by decide
    have hleft : (alignHistory [(-89, 40)] (canonicalDates 0) 50).getD 0 0 = 40 := by
      rw [alignHistory_getD_zero _ _ _ (by rw [canonicalDates_length]; decide), hd0, hff]
    have hright : (_make_fallback_series (canonicalDates 0) 50).getD 0 0 = 50 := by
      rw [_make_fallback_series, List.getD_eq_getElem _ _
        (by rw [List.length_map, canonicalDates_length]; decide), List.getElem_map]
    rw [hlists, hright] at hleft
    norm_num at hleft
  · rw [hagg, hfp.2.1, hcf.2.1, hstored]

/-- C2 amended: for every combination of provider outcomes the snapshot's
key set is exactly the configured categories; every category whose provider
raised on `fetch_current` or never completed carries the neutral score 50.0
and a recorded error string; the flat fallback history is guaranteed for
never-completed providers and for raising providers whose history fetch
also failed or returned empty — but a provider that raised only on
`fetch_current` while returning a non-empty history keeps that history,
reindexed, with its last point forced to 50. -/
theorem aggregate_snapshot_fully_keyed_fallbacks (cats : List String) (hnd : cats.Nodup)
    (outcome : String → FetchOutcome) (endDay : Int) :
    ((aggregate_data cats outcome endDay).current_scores.map Prod.fst).Perm cats
    ∧ ∀ c ∈ cats,
      (outcome c = .neverCompleted →
        dictFind c (aggregate_data cats outcome endDay).current_scores = some 50
        ∧ dictFind c (aggregate_data cats outcome endDay).category_history
            = some (_make_fallback_series (canonicalDates endDay) 50)
        ∧ dictFind c (aggregate_data cats outcome endDay).provider_errors
            = some "Provider timed out")
      ∧ (∀ e hist, outcome c = .completed (.error e) hist →
        dictFind c (aggregate_data cats outcome endDay).current_scores = some 50
        ∧ dictFind c (aggregate_data cats outcome endDay).provider_errors = some e
        ∧ (∀ e2, hist = .error e2 →
            dictFind c (aggregate_data cats outcome endDay).category_history
              = some (_make_fallback_series (canonicalDates endDay) 50))
        ∧ (hist = .ok [] →
            dictFind c (aggregate_data cats outcome endDay).category_history
              = some (_make_fallback_series (canonicalDates endDay) 50))
        ∧ (∀ h2, hist = .ok h2 → h2 ≠ [] →
            dictFind c (aggregate_data cats outcome endDay).category_history
              = some (alignHistory h2 (canonicalDates endDay) 50)
            ∧ (alignHistory h2 (canonicalDates endDay) 50).getLast? = some 50)) := by
  constructor
  · -- key-set permutation
    rw [show aggregate_data cats outcome endDay
        = fillMissing (canonicalDates endDay) cats
            (collectCompleted (canonicalDates endDay) outcome cats ⟨[], [], []⟩) from rfl]
    rw [show (fillMissing (canonicalDates endDay) cats
        (collectCompleted (canonicalDates endDay) outcome cats ⟨[], [], []⟩)).current_scores.map
          Prod.fst
        = dictKeys (fillMissing (canonicalDates endDay) cats
            (collectCompleted (canonicalDates endDay) outcome cats ⟨[], [], []⟩)).current_scores
        from rfl]
    rw [fill_keys (canonicalDates endDay) cats hnd, collect_keys]
    have hfc : cats.filter (fun c => (dictFind c
        (collectCompleted (canonicalDates endDay) outcome cats
          ⟨[], [], []⟩).current_scores).isNone)
        = cats.filter (fun c => ! isCompleted outcome c) := by
      apply List.filter_congr
      intro c hcm
      cases ho : outcome c with
      | completed cur hist =>
        rw [(collect_find_spec (canonicalDates endDay) outcome cats hnd c hcm cur hist ho).1]
        simp [isCompleted, ho]
      | neverCompleted =>
        rw [(collect_find_never (canonicalDates endDay) outcome cats hnd c hcm ho).1]
        simp [isCompleted, ho]
    rw [hfc]
    exact List.filter_append_perm (isCompleted outcome) cats
  · intro c hc
    constructor
    · intro ho
      have hn := collect_find_never (canonicalDates endDay) outcome cats hnd c hc ho
      have hf := fill_fills (canonicalDates endDay) cats
        (collectCompleted (canonicalDates endDay) outcome cats ⟨[], [], []⟩) c hc
        hn.1 hn.2.1 hn.2.2
      exact hf
    · intro e hist ho
      have hcf := collect_find_spec (canonicalDates endDay) outcome cats hnd c hc
        (.error e) hist ho
      have hsc : (fetchProviderData (Except.error e) hist).score = 50 := by
        cases hist <;> rfl
      have herr : (fetchProviderData (Except.error e) hist).errorMsg = some e := by
        cases hist <;> rfl
      have hfp := fill_preserve (canonicalDates endDay) cats
        (collectCompleted (canonicalDates endDay) outcome cats ⟨[], [], []⟩) c
        (by rw [hcf.1]; rfl)
      refine ⟨?_, ?_, ?_, ?_, ?_⟩
      · rw [show aggregate_data cats outcome endDay
            = fillMissing (canonicalDates endDay) cats
                (collectCompleted (canonicalDates endDay) outcome cats ⟨[], [], []⟩) from rfl,
          hfp.1, hcf.1, hsc]
      · rw [show aggregate_data cats outcome endDay
            = fillMissing (canonicalDates endDay) cats
                (collectCompleted (canonicalDates endDay) outcome cats ⟨[], [], []⟩) from rfl,
          hfp.2.2, hcf.2.2, herr]
      · rintro e2 rfl
        rw [show aggregate_data cats outcome endDay
            = fillMissing (canonicalDates endDay) cats
                (collectCompleted (canonicalDates endDay) outcome cats ⟨[], [], []⟩) from rfl,
          hfp.2.1, hcf.2.1]
        rfl
      · rintro rfl
        rw [show aggregate_data cats outcome endDay
            = fillMissing (canonicalDates endDay) cats
                (collectCompleted (canonicalDates endDay) outcome cats ⟨[], [], []⟩) from rfl,
          hfp.2.1, hcf.2.1]
        rfl
      · rintro h2 rfl hne2
        have hr2 : fetchProviderData (Except.error e) (Except.ok h2)
            = ⟨50, some h2, some e⟩ := rfl
        have hstored : storedHistory (canonicalDates endDay)
            (fetchProviderData (Except.error e) (Except.ok h2))
            = alignHistory h2 (canonicalDates endDay) 50 := by
          rw [hr2]
          simp only [storedHistory]
          rw [if_neg (ne_true_of_eq_false (List.isEmpty_eq_false.mpr hne2))]
        refine ⟨?_, alignHistory_getLast _ _ _ (canonicalDates_ne_nil endDay)⟩
        rw [show aggregate_data cats outcome endDay
            = fillMissing (canonicalDates endDay) cats
                (collectCompleted (canonicalDates endDay) outcome cats ⟨[], [], []⟩) from rfl,
          hfp.2.1, hcf.2.1, hstored]

/-- C2 witness: a cycle where every provider times out, one where every
provider raises on both fetches, and one where the provider raises only on
`fetch_current` with a non-empty history — fully-keyed snapshots with the
neutral fallbacks, recorded errors, and the kept reindexed history. -/
theorem aggregate_snapshot_fully_keyed_fallbacks_witness :
    dictFind "weather" (aggregate_data ["weather"] allTimedOut 0).current_scores = some 50
    ∧ dictFind "weather" (aggregate_data ["weather"] allTimedOut 0).category_history
        = some (_make_fallback_series (canonicalDates 0) 50)
    ∧ dictFind "weather" (aggregate_data ["weather"] allTimedOut 0).provider_errors
        = some "Provider timed out"
    ∧ dictFind "energy" (aggregate_data ["energy"] allRaised 0).current_scores = some 50
    ∧ dictFind "energy" (aggregate_data ["energy"] allRaised 0).provider_errors = some "boom"
    ∧ dictFind "energy" (aggregate_data ["energy"] allRaised 0).category_history
        = some (_make_fallback_series (canonicalDates 0) 50)
    ∧ dictFind "weather" (aggregate_data ["weather"] cexOutcome 0).category_history
        = some (alignHistory [(-89, 40)] (canonicalDates 0) 50)
    ∧ ((aggregate_data ["weather"] allTimedOut 0).current_scores.map Prod.fst).Perm
        ["weather"] := by
  have h1 := aggregate_snapshot_fully_keyed_fallbacks ["weather"] (by simp) allTimedOut 0
  have h2 := aggregate_snapshot_fully_keyed_fallbacks ["energy"] (by simp) allRaised 0
  have h3 := aggregate_snapshot_fully_keyed_fallbacks ["weather"] (by simp) cexOutcome 0
  have ha := (h1.2 "weather" (by simp)).1 rfl
  have hb := (h2.2 "energy" (by simp)).2 "boom" (.error "down") rfl
  have hk := ((h3.2 "weather" (by simp)).2 "boom" (.ok [(-89, 40)]) rfl).2.2.2.2
    [(-89, 40)] rfl (by simp)
  exact ⟨ha.1, ha.2.1, ha.2.2, hb.1, hb.2.1, hb.2.2.1 "down" rfl, hk.1, h1.1⟩

/-- C4: a provider that returns a current score and a non-empty history has
its history stored reindexed onto the cycle's canonical daily range of
length HISTORY_DAYS by forward-fill with current-score gap filling, and the
value at the most recent date is forced to the live `fetch_current` score —
the last history point always equals the current score. -/
theorem aggregate_history_aligned_last_is_live (cats : List String) (hnd : cats.Nodup)
    (outcome : String → FetchOutcome) (endDay : Int) (c : String) (hc : c ∈ cats)
    (s : ℚ) (h : HistSeries) (ho : outcome c = .completed (.ok s) (.ok h)) (hne : h ≠ []) :
    dictFind c (aggregate_data cats outcome endDay).category_history
      = some (alignHistory h (canonicalDates endDay) s)
    ∧ (alignHistory h (canonicalDates endDay) s).length = HISTORY_DAYS
    ∧ (alignHistory h (canonicalDates endDay) s).getLast? = some s
    ∧ dictFind c (aggregate_data cats outcome endDay).current_scores = some s := by
  have hcf := collect_find_spec (canonicalDates endDay) outcome cats hnd c hc
    (.ok s) (.ok h) ho
  have hfp := fill_preserve (canonicalDates endDay) cats
    (collectCompleted (canonicalDates endDay) outcome cats ⟨[], [], []⟩) c
    (by rw [hcf.1]; rfl)
  have hr : fetchProviderData (Except.ok s) (Except.ok h) = ⟨s, some h, none⟩ := rfl
  have hstored : storedHistory (canonicalDates endDay)
      (fetchProviderData (Except.ok s) (Except.ok h))
      = alignHistory h (canonicalDates endDay) s := by
    rw [hr]
    simp only [storedHistory]
    rw [if_neg (ne_true_of_eq_false (List.isEmpty_eq_false.mpr hne))]
  refine ⟨?_, ?_, ?_, ?_⟩
  · rw [show aggregate_data cats outcome endDay
        = fillMissing (canonicalDates endDay) cats
            (collectCompleted (canonicalDates endDay) outcome cats ⟨[], [], []⟩) from rfl,
      hfp.2.1, hcf.2.1, hstored]
  · rw [alignHistory_length, canonicalDates_length]
  · exact alignHistory_getLast _ _ _ (canonicalDates_ne_nil endDay)
  · rw [show aggregate_data cats outcome endDay
        = fillMissing (canonicalDates endDay) cats
            (collectCompleted (canonicalDates endDay) outcome cats ⟨[], [], []⟩) from rfl,
      hfp.1, hcf.1, hr]

/-- C4 witness: one provider with live score 80 and a one-point history at
the earliest canonical date; the stored history is the aligned series and
its last point equals the live score 80, not the forward-filled 40. -/
theorem aggregate_history_aligned_last_is_live_witness :
    dictFind "weather" (aggregate_data ["weather"] allGood 0).category_history
      = some (alignHistory [(-89, 40)] (canonicalDates 0) 80)
    ∧ (alignHistory [((-89 : Int), (40:ℚ))] (canonicalDates 0) 80).getLast? = some 80 := by
  have h := aggregate_history_aligned_last_is_live ["weather"] (by simp) allGood 0 "weather"
    (by simp) 80 [(-89, 40)] rfl (by simp)
  exact ⟨h.1, h.2.2.1⟩

end GSC



